import Mathlib

/-!
Verification development for the upnest2 backend.

The development shallowly embeds the code that the properties below are
about:

* `percentiles_cal/percentiles_service_layer.py` — the WHO/LMS percentile
  calculator (`_calc_age_in_days`, `get_lms`, `lms_zscore`,
  `zscore_to_percentile`, `compute_percentile`, `compute_percentiles`);
* `lambdas/babies/baby_service.py` — change classification of a PATCH and
  the synchronous FULL / BIRTH_ONLY recompute paths;
* `lambdas/babies/baby_stream_processor.py` — the birth-record projector
  (`_upsert_birth_growth_item`, `_delete_birth_growth_item_and_pointer`,
  `_remove_percentiles_for_baby`, `handle_stream_event`);
* `lambdas/percentiles/stream_processor.py` — the growth-data stream
  recompute (`_round2`, `_percentiles_equal`, `_update_item_if_needed`).

Modelling conventions:

* Python floats are modelled as `ℚ`; the float value `nan` that
  `lms_zscore` can return is modelled as the `none` of an `Option ℚ`.
* The transcendental C-library functions used by the calculator
  (`math.erf`, `math.log`, `**`, `math.sqrt 2`) are an external interface
  and are passed in as a `MathFns` record; the only fact ever assumed about
  them is the documented range of `erf` (`-1 ≤ erf x ≤ 1`).
* Calendar dates (always `YYYY-MM-DD` strings parsed with
  `datetime.strptime`) are modelled by the proleptic-Gregorian day ordinal
  of the parsed datetime, an `ℤ`.  Both operations applied to parsed dates
  (`<` comparison and `.days` of a difference) factor through this
  ordinal.
* DynamoDB tables are association lists keyed by their primary key;
  `transact_write_items` is modelled as an atomic state update that is
  applied in full when the transaction commits and not at all when it is
  rejected (`txOk = false`).
* Timestamps (`datetime.now(...)`) and fresh UUIDs (`uuid.uuid4()`) are
  nondeterministic inputs and are passed in as explicit arguments.
-/

/-! ## Rounding

Python's builtin `round(x, n)` rounds half to even; `Decimal.quantize`
with `ROUND_HALF_UP` (used by `stream_processor._round2`) rounds half away
from zero. -/

/-- Round a rational to the nearest integer, ties to the even integer
(Python's builtin `round` on a float). -/
def roundHalfEven (x : ℚ) : ℤ :=
  let f : ℤ := ⌊x⌋
  let r : ℚ := x - f
  if r < 1/2 then f
  else if 1/2 < r then f + 1
  else if f % 2 = 0 then f else f + 1

/-- Python `round(x, n)`: round to `n` decimal digits, ties to even. -/
def pyRound (x : ℚ) (n : ℕ) : ℚ :=
  (roundHalfEven (x * 10 ^ n) : ℚ) / 10 ^ n

/-- Round a rational to the nearest integer, ties away from zero
(`decimal.ROUND_HALF_UP`). -/
def roundHalfAway (x : ℚ) : ℤ :=
  if 0 ≤ x then ⌊x + 1/2⌋ else -⌊-x + 1/2⌋

/-! ## Percentile calculator (`percentiles_service_layer.py`) -/

/-- External interface to the C math library functions the calculator
uses: `pw a b` stands for `a ** b`, `lg` for `math.log`, `erf` for
`math.erf` and `sqrt2` for `math.sqrt 2.0`. -/
structure MathFns where
  pw : ℚ → ℚ → ℚ
  lg : ℚ → ℚ
  erf : ℚ → ℚ
  sqrt2 : ℚ

/-- One row of a WHO reference table: the L, M, S parameters (already
converted to float by `get_lms`). -/
structure LMSRow where
  L : ℚ
  M : ℚ
  S : ℚ
deriving DecidableEq, Repr

/-- The day-indexed reference table for one (measurement type, sex) pair:
`_INDEX_BY_DAY_CACHE`'s value, a day-keyed mapping in insertion order. -/
abbrev DayIndex : Type := List (ℤ × LMSRow)

/-- `min(index.keys(), key=lambda d: abs(d - age_in_days))`: Python's
`min` keeps the first element attaining the minimum, scanning in order. -/
def nearestEntry (age : ℤ) : List (ℤ × LMSRow) → (ℤ × LMSRow) → (ℤ × LMSRow)
  | [], best => best
  | p :: rest, best => nearestEntry age rest (if |p.1 - age| < |best.1 - age| then p else best)

/-- `get_lms`: exact day match in the index, else the nearest day by
absolute distance (first minimum wins). -/
def get_lms (index : DayIndex) (age_in_days : ℤ) : Except String LMSRow :=
  match index with
  | [] => .error "No growth data available"
  | p :: rest =>
    match List.lookup age_in_days (p :: rest) with
    | some row => .ok row
    | none => .ok (nearestEntry age_in_days rest p).2

/-- `lms_zscore`: returns `float(nan)` (modelled `none`) when
`value <= 0 or M <= 0 or S <= 0`; otherwise the LMS z-score, with the
log form when `abs(L) < 1e-12`. -/
def lms_zscore (mf : MathFns) (value L M S : ℚ) : Option ℚ :=
  if value ≤ 0 ∨ M ≤ 0 ∨ S ≤ 0 then none
  else if |L| < 1 / 10 ^ 12 then some (mf.lg (value / M) / S)
  else some ((mf.pw (value / M) L - 1) / (L * S))

/-- `_phi`: standard normal CDF via the error function. -/
def _phi (mf : MathFns) (x : ℚ) : ℚ :=
  1/2 * (1 + mf.erf (x / mf.sqrt2))

/-- `zscore_to_percentile`: propagates `nan`, otherwise `phi(z) * 100`. -/
def zscore_to_percentile (mf : MathFns) (z : Option ℚ) : Option ℚ :=
  match z with
  | none => none
  | some z => some (_phi mf z * 100)

/-- `_calc_age_in_days` on the day ordinals of the two parsed dates:
fails when the measurement date precedes the birth date, else the
difference in whole days. -/
def _calc_age_in_days (birth_date measurement_date : ℤ) : Except String ℤ :=
  if measurement_date < birth_date then
    .error "Measurement date cannot be before birth date"
  else .ok (measurement_date - birth_date)

/-- The dict returned by `compute_percentile` (the `dates` echo of the
two input dates is dropped; `LMS` is flattened into three fields).
`percentile`/`zscore` are `none` when the float is `nan`. -/
structure PercentileResult where
  measurementType : String
  value : ℚ
  percentile : Option ℚ
  zscore : Option ℚ
  ageInDays : ℤ
  sex : String
  lmsL : ℚ
  lmsM : ℚ
  lmsS : ℚ
deriving DecidableEq, Repr

/-- The reference table source: tables per (measurement type, sex). -/
abbrev TableSource : Type := String → String → DayIndex

/-- `compute_percentile`: validation, grams→kg conversion for weight,
age lookup, LMS row selection, z-score and percentile, rounded. -/
def compute_percentile (mf : MathFns) (tables : TableSource)
    (measurement_type sex : String) (value : ℚ)
    (birth_date measurement_date : ℤ) : Except String PercentileResult :=
  if measurement_type ∉ ["weight", "height", "headCircumference"] then
    .error "measurementType must be weight|height|headCircumference"
  else if sex ∉ ["male", "female"] then
    .error "sex must be male|female"
  else if value ≤ 0 then
    .error "Measurement value must be positive"
  else
    let value_f : ℚ := if measurement_type = "weight" then value / 1000 else value
    match _calc_age_in_days birth_date measurement_date with
    | .error e => .error e
    | .ok age_days =>
      match get_lms (tables measurement_type sex) age_days with
      | .error e => .error e
      | .ok row =>
        let z := lms_zscore mf value_f row.L row.M row.S
        let p := zscore_to_percentile mf z
        .ok { measurementType := measurement_type
              value := value
              percentile := p.map (pyRound · 2)
              zscore := z.map (pyRound · 4)
              ageInDays := age_days
              sex := sex
              lmsL := pyRound row.L 6
              lmsM := pyRound row.M 6
              lmsS := pyRound row.S 6 }

/-- The `baby` argument of `compute_percentiles`: only `gender` and
`dateOfBirth` are read; a missing key is `none`. -/
structure BabyCalcInfo where
  gender : Option String
  dateOfBirth : Option ℤ

/-- The keys of `_DIR_MAP`. -/
def _DIR_MAP_keys : List String := ["headCircumference", "height", "weight"]

/-- `compute_percentiles`: the multi-metric adapter.  Raises only when
`gender`/`dateOfBirth` is missing; every per-metric exception is caught
and that metric skipped.  The result maps each computed metric to its
`percentile` field (which is `nan`, i.e. `none`, when the LMS row was
degenerate — the Python `if p is not None` guard does not filter `nan`).
`measurement_date` is `Option`al because callers forward a possibly
missing `measurementDate`; `strptime(None, ...)` raises inside the loop
and is caught like any other per-metric error. -/
def compute_percentiles (mf : MathFns) (tables : TableSource)
    (baby : BabyCalcInfo) (measurement_date : Option ℤ)
    (measurements : List (String × Option ℚ)) :
    Except String (List (String × Option ℚ)) :=
  match baby.gender, baby.dateOfBirth with
  | some g, some dob =>
    .ok <| measurements.foldl
      (fun acc x =>
        match x.2 with
        | none => acc
        | some v =>
          if x.1 ∈ _DIR_MAP_keys then
            match measurement_date with
            | none => acc
            | some md =>
              match compute_percentile mf tables x.1 g v dob md with
              | .ok r => acc ++ [(x.1, r.percentile)]
              | .error _ => acc
          else acc)
      []
  | _, _ => .error "baby must include gender and dateOfBirth"

/-! ## Change classification (`baby_service.py`, PATCH handler)

`changed_keys` is the set of updated field names;
`trigger_full`/`trigger_birth_only` at lines 406–409 decide the scope. -/

/-- The recompute scope of a PATCH (`mode` in the response). -/
inductive RecalcScope where
  | FULL
  | BIRTH_ONLY
  | NONE
deriving DecidableEq, Repr

/-- `structural_fields = {"dateOfBirth", "gender"}`. -/
def structural_fields : List String := ["dateOfBirth", "gender"]

/-- `birth_measure_fields = {"birthWeight", "birthHeight", "headCircumference"}`. -/
def birth_measure_fields : List String := ["birthWeight", "birthHeight", "headCircumference"]

/-- The change classification:
`trigger_full = len(changed_keys & structural_fields) > 0`,
`trigger_birth_only = (not trigger_full) and len(changed_keys & birth_measure_fields) > 0`,
else the NONE branch at the end of the PATCH handler. -/
def classify (changed_keys : List String) : RecalcScope :=
  if changed_keys.any (fun k => k ∈ structural_fields) then .FULL
  else if changed_keys.any (fun k => k ∈ birth_measure_fields) then .BIRTH_ONLY
  else .NONE

/-! ## Growth-data stream recompute (`percentiles/stream_processor.py`) -/

/-- `_round2`: `Decimal(str(x)).quantize(Decimal("0.01"), ROUND_HALF_UP)`. -/
def _round2 (x : ℚ) : ℚ :=
  (roundHalfAway (x * 100) : ℚ) / 100

/-- The three metric keys compared by the stream processor. -/
def pctKeys : List String := ["weight", "height", "headCircumference"]

/-- `_percentiles_equal(a, b)`: `False` when either map is missing or
empty (falsy); otherwise every one of the three keys must be present in
both maps and equal after 2-decimal rounding. -/
def _percentiles_equal (a b : Option (List (String × ℚ))) : Bool :=
  match a, b with
  | some a, some b =>
    if a.isEmpty || b.isEmpty then false
    else pctKeys.all fun k =>
      match List.lookup k a, List.lookup k b with
      | some av, some bv => _round2 av == _round2 bv
      | _, _ => false
  | _, _ => false

/-- A growth-data item (`upnest-growth-data` row).  `measurementDate` is
the day ordinal of the stored date string (`none` when the attribute is
absent); `percentiles` is the cached percentile map (`none` when the
attribute is absent — the staleness token); timestamps are abstract. -/
structure GrowthItem where
  dataId : String
  babyId : String
  userId : String
  measurementDate : Option ℤ
  measurements : List (String × Option ℚ)
  measurementSource : String
  percentiles : Option (List (String × ℚ))
  createdAt : ℕ
  updatedAt : ℕ
deriving DecidableEq, Repr

/-- The growth-data table keyed by `dataId`. -/
abbrev GrowthTable : Type := List (String × GrowthItem)

/-- Write `v` at key `k`: replace an existing binding, else append
(a DynamoDB put / update-creating-the-item). -/
def assocPut (l : List (String × α)) (k : String) (v : α) : List (String × α) :=
  if (List.lookup k l).isSome then
    l.map fun p => if p.1 = k then (k, v) else p
  else l ++ [(k, v)]

/-- Delete the binding at key `k` (a DynamoDB delete; deleting an absent
key is a no-op). -/
def assocDelete (l : List (String × α)) (k : String) : List (String × α) :=
  l.filter fun p => p.1 ≠ k

/-- `_update_item_if_needed(data_id, new_percentiles)`: read the current
item, skip the write when `_percentiles_equal`, else
`SET percentiles = :p, updatedAt = :u`.  `now` is the wall clock at the
write.  (The Python `payload` comprehension drops `None` values; the
fresh map's values are floats, never `None`.) -/
def _update_item_if_needed (now : ℕ) (store : GrowthTable) (data_id : String)
    (new_percentiles : List (String × ℚ)) : GrowthTable :=
  let current := List.lookup data_id store
  let existing := current.bind (·.percentiles)
  if _percentiles_equal existing (some new_percentiles) then store
  else
    store.map fun p =>
      if p.1 = data_id then
        (p.1, { p.2 with percentiles := some new_percentiles, updatedAt := now })
      else p

/-! ## Birth-record projector (`babies/baby_stream_processor.py`) -/

/-- Python truthiness of an optional string (`None` and `""` are falsy). -/
def isTruthy : Option String → Bool
  | none => false
  | some s => s ≠ ""

/-- A baby-table item as seen in a stream image.  A key absent from the
image is `none`.  `birthMeasurements` is the optional nested map. -/
structure BabyImage where
  babyId : Option String := none
  userId : Option String := none
  dateOfBirth : Option ℤ := none
  gender : Option String := none
  birthWeight : Option ℚ := none
  birthHeight : Option ℚ := none
  headCircumference : Option ℚ := none
  birthDataId : Option String := none
  birthMeasurements : List (String × Option ℚ) := []
deriving DecidableEq, Repr

/-- The empty dict `_unmarshal` produces for a missing image. -/
def emptyBabyImage : BabyImage := {}

/-- `_extract_birth_measurements`: start from the nested
`birthMeasurements` map, then fill in each flattened candidate key that
is non-`None` and not already present. -/
def _extract_birth_measurements (baby : BabyImage) : List (String × Option ℚ) :=
  let addIf := fun (m : List (String × Option ℚ)) (k : String) (v : Option ℚ) =>
    match v with
    | none => m
    | some v => if (List.lookup k m).isSome then m else m ++ [(k, some v)]
  addIf (addIf (addIf baby.birthMeasurements "weight" baby.birthWeight)
      "height" baby.birthHeight)
    "headCircumference" baby.headCircumference

/-- `_normalize_numeric_fields`: `Decimal(str(float(v)))` preserves the
numeric value in this rational model and `None` is kept; the
non-numeric-string branch is unrepresentable here. -/
def _normalize_numeric_fields (measurements : List (String × Option ℚ)) :
    List (String × Option ℚ) :=
  measurements

/-- `_has_any_value`: at least one non-`None` value `> 0`. -/
def _has_any_value (measurements : List (String × Option ℚ)) : Bool :=
  measurements.any fun p =>
    match p.2 with
    | some v => 0 < v
    | none => false

/-- The babies table restricted to what the projector writes and reads:
per `babyId`, the value of the `birthDataId` attribute (`none` when the
item exists without the attribute). -/
abbrev BabiesTable : Type := List (String × Option String)

/-- `SET birthDataId = if_not_exists(birthDataId, :id)`: set the pointer
only when absent; an `update_item` on a missing key creates the item. -/
def setPointerIfAbsent (babies : BabiesTable) (baby_id birth_id : String) :
    BabiesTable :=
  match List.lookup baby_id babies with
  | some (some _) => babies
  | some none => babies.map fun p => if p.1 = baby_id then (baby_id, some birth_id) else p
  | none => babies ++ [(baby_id, some birth_id)]

/-- `REMOVE birthDataId` on the baby item. -/
def removePointer (babies : BabiesTable) (baby_id : String) : BabiesTable :=
  match List.lookup baby_id babies with
  | some _ => babies.map fun p => if p.1 = baby_id then (baby_id, none) else p
  | none => babies ++ [(baby_id, none)]

/-- The two tables the projector touches. -/
structure ProjState where
  growth : GrowthTable
  babies : BabiesTable
deriving DecidableEq, Repr

/-- `_upsert_birth_growth_item(baby, normalized)`.
`freshId` models the `uuid.uuid4()` drawn when the image has no
`birthDataId`; `now` models `_iso_now()`; `txOk` models whether
`transact_write_items` commits (it is atomic: on rejection neither the
put nor the pointer update is applied).  The put writes the full item
without a `percentiles` attribute; `createdAt` is preserved from the
existing item when present. -/
def _upsert_birth_growth_item (txOk : Bool) (freshId : String) (now : ℕ)
    (s : ProjState) (baby : BabyImage) (normalized : List (String × Option ℚ)) :
    ProjState :=
  if isTruthy baby.babyId && isTruthy baby.userId && baby.dateOfBirth.isSome then
    match baby.babyId, baby.userId, baby.dateOfBirth with
    | some baby_id, some user_id, some dob =>
      let birth_id := if isTruthy baby.birthDataId then baby.birthDataId.getD freshId else freshId
      let createdAt :=
        match List.lookup birth_id s.growth with
        | some current => current.createdAt
        | none => now
      let item : GrowthItem :=
        { dataId := birth_id
          babyId := baby_id
          userId := user_id
          measurementDate := some dob
          measurements := normalized
          measurementSource := "birth"
          percentiles := none
          createdAt := createdAt
          updatedAt := now }
      if txOk then
        { growth := assocPut s.growth birth_id item
          babies := setPointerIfAbsent s.babies baby_id birth_id }
      else s
    | _, _, _ => s
  else s

/-- `_delete_birth_growth_item_and_pointer(baby)`: atomically delete the
pointed-to growth item and `REMOVE birthDataId`; skipped when the image
lacks `babyId` or `birthDataId`. -/
def _delete_birth_growth_item_and_pointer (txOk : Bool) (s : ProjState)
    (baby : BabyImage) : ProjState :=
  if isTruthy baby.babyId && isTruthy baby.birthDataId then
    match baby.babyId, baby.birthDataId with
    | some baby_id, some birth_id =>
      if txOk then
        { growth := assocDelete s.growth birth_id
          babies := removePointer s.babies baby_id }
      else s
    | _, _ => s
  else s

/-- Chunk a list into consecutive groups of 25
(`for i in range(0, len(items), 25): chunk = items[i:i+25]`) —
DynamoDB transactions accept at most 25 items. -/
def chunks25 (l : List α) : List (List α) :=
  if h : l.isEmpty then [] else l.take 25 :: chunks25 (l.drop 25)
termination_by l.length
decreasing_by
  simp only [List.length_drop]
  cases l with
  | nil => simp at h
  | cons a t => simp; omega

/-- One `transact_write_items` of the cascade: `REMOVE percentiles` for
every id in the batch, atomically. -/
def applyRemoveBatch (growth : GrowthTable) (ids : List String) : GrowthTable :=
  growth.map fun p =>
    if p.1 ∈ ids then (p.1, { p.2 with percentiles := none }) else p

/-- `_remove_percentiles_for_baby(baby_id)`: query the
`BabyGrowthDataIndex` for the baby's growth items (modelled as a single
page holding all matches), chunk them into groups of 25, and run one
atomic `REMOVE percentiles` transaction per non-empty chunk (items
without a `dataId` are dropped; an all-dropped chunk issues no
transaction).  Returns the new state together with the list of executed
transactions (each the batch's `dataId`s); the per-id fire-and-forget
recompute dispatches carry exactly those ids. -/
def _remove_percentiles_for_baby (s : ProjState) (baby_id : String) :
    ProjState × List (List String) :=
  if baby_id = "" then (s, [])
  else
    let items := (s.growth.filter fun p => p.2.babyId = baby_id).map (·.2)
    let rawBatches := (chunks25 items).map fun c =>
      (c.filter fun it => it.dataId ≠ "").map (·.dataId)
    let batches := rawBatches.filter fun ids => ¬ids.isEmpty
    ({ s with growth := batches.foldl applyRemoveBatch s.growth }, batches)

/-- The transactions issued for one query page of `_remove_percentiles_for_baby`:
chunk the page into groups of 25, drop items without a `dataId`, and
issue one atomic transaction per non-empty group. -/
def batchesOfItems (items : List GrowthItem) : List (List String) :=
  ((chunks25 items).map fun c =>
    (c.filter fun it => it.dataId ≠ "").map (·.dataId)).filter fun ids => ¬ids.isEmpty

/-- The body of the pagination loop of `_remove_percentiles_for_baby`
(`while True` with `LastEvaluatedKey`, lines 249–328): process one query
page — one transaction per non-empty 25-chunk — then continue with the
next page against the updated store.  Every transaction is modelled as
committing (a failure is logged and breaks the loop). -/
def _remove_pages (s : ProjState) : List (List GrowthItem) → ProjState × List (List String)
  | [] => (s, [])
  | items :: rest =>
    let batches := batchesOfItems items
    let next := _remove_pages { s with growth := batches.foldl applyRemoveBatch s.growth } rest
    (next.1, batches ++ next.2)

/-- `_remove_percentiles_for_baby` with the index query's pagination
modelled: `pages` is the sequence of pages the `BabyGrowthDataIndex`
query returns for the subject (their concatenation is the subject's
record list; the page split is the store's choice). -/
def _remove_percentiles_paged (s : ProjState) (baby_id : String)
    (pages : List (List GrowthItem)) : ProjState × List (List String) :=
  if baby_id = "" then (s, [])
  else _remove_pages s pages

/-- The list of cache-removal transactions `_remove_percentiles_for_baby`
issues for a growth table and subject (spelled out for reasoning; the
function itself inlines this computation). -/
def removalBatches (g : GrowthTable) (baby_id : String) : List (List String) :=
  ((chunks25 ((g.filter fun p => p.2.babyId = baby_id).map (·.2))).map fun c =>
      (c.filter fun it => it.dataId ≠ "").map (·.dataId)).filter fun ids => ¬ids.isEmpty

/-- One record of a Babies-stream event (`Records[i]`): the event type
and the unmarshalled old/new images (`none` when the image is absent). -/
structure StreamRecord where
  eventName : String
  newImage : Option BabyImage
  oldImage : Option BabyImage

/-- The body of `handle_stream_event`'s loop for a single record:
skip non-INSERT/MODIFY, cascade-invalidate on a gender or date-of-birth
difference between the images, then upsert or delete the canonical birth
record according to the extracted birth measurements. -/
def processRecord (txOk : Bool) (freshId : String) (now : ℕ)
    (s : ProjState) (rec : StreamRecord) : ProjState :=
  if rec.eventName ∉ ["INSERT", "MODIFY"] then s
  else
    match rec.newImage with
    | none => s
    | some new_baby =>
      let old_baby := rec.oldImage.getD emptyBabyImage
      let s1 :=
        if isTruthy new_baby.babyId ∧
            (old_baby.gender ≠ new_baby.gender ∨
             old_baby.dateOfBirth ≠ new_baby.dateOfBirth) then
          (_remove_percentiles_for_baby s (new_baby.babyId.getD "")).1
        else s
      if new_baby.dateOfBirth.isNone then s1
      else
        let normalized := _normalize_numeric_fields (_extract_birth_measurements new_baby)
        if _has_any_value normalized then
          _upsert_birth_growth_item txOk freshId now s1 new_baby normalized
        else if isTruthy new_baby.birthDataId then
          _delete_birth_growth_item_and_pointer txOk s1 new_baby
        else s1

/-- `handle_stream_event`: fold `processRecord` over the event's records,
consuming one (transaction outcome, fresh uuid, timestamp) triple per
record. -/
def handle_stream_event (supply : List (Bool × String × ℕ))
    (s : ProjState) : List StreamRecord → ProjState
  | [] => s
  | r :: rs =>
    match supply with
    | [] => s
    | (tx, fid, now) :: sup => handle_stream_event sup (processRecord tx fid now s r) rs

/-! ## Synchronous FULL recompute, per-item (`baby_service.py` lines 423–507) -/

/-- `_coerce_measurements_to_float`: `float(v)` preserves the value in
this rational model; `None` is kept. -/
def _coerce_measurements_to_float (item : GrowthItem) : List (String × Option ℚ) :=
  item.measurements

/-- `"before birth date" in str(err).lower()`. -/
def mentionsBeforeBirth (e : String) : Bool :=
  (e.toLower.splitOn "before birth date").length > 1

/-- What the FULL loop produced for one growth item: the percentile map
destined for the conditional write (`{}` when the item is skipped), how
many times `compute_percentiles` was invoked for the item, and whether
`_fetch_growth_item_consistent` was called. -/
structure FullItemOutcome where
  pct : List (String × Option ℚ)
  attempts : ℕ
  refetched : Bool
deriving DecidableEq, Repr

/-- The body of the FULL-recalc loop (lines 423–507) for one item:
birth-date realignment, `compute_percentiles`, and — only if that call
raised an error mentioning "before birth date" — a strongly-consistent
re-fetch followed by at most one retry when the re-fetched measurement
date differs.  `fetchConsistent` models `_fetch_growth_item_consistent`
(the persisted realignment write is not represented; nothing below
depends on it). -/
def processFullItem (mf : MathFns) (tables : TableSource)
    (baby_gender : Option String) (baby_dob : Option ℤ)
    (birthDataId : Option String)
    (fetchConsistent : String → Option GrowthItem)
    (item : GrowthItem) : FullItemOutcome :=
  let meas := _coerce_measurements_to_float item
  let mdate := item.measurementDate
  let mdate := if item.dataId ≠ "" ∧ birthDataId = some item.dataId ∧ mdate ≠ baby_dob
    then baby_dob else mdate
  match compute_percentiles mf tables ⟨baby_gender, baby_dob⟩ mdate meas with
  | .ok p => { pct := p, attempts := 1, refetched := false }
  | .error err =>
    if item.dataId ≠ "" ∧ mentionsBeforeBirth err then
      match fetchConsistent item.dataId with
      | some fresh =>
        if fresh.measurementDate ≠ mdate then
          match compute_percentiles mf tables ⟨baby_gender, baby_dob⟩
              fresh.measurementDate (_coerce_measurements_to_float fresh) with
          | .ok p2 => { pct := p2, attempts := 2, refetched := true }
          | .error _ => { pct := [], attempts := 2, refetched := true }
        else { pct := [], attempts := 1, refetched := true }
      | none => { pct := [], attempts := 1, refetched := true }
    else { pct := [], attempts := 1, refetched := false }

/-! ## Baby-item writers (`baby_service.py`, `baby_stream_processor.py`)

For the provenance of field names the baby item is modelled as a partial
map from attribute name to an abstract value type. -/

/-- The whitelist both the PUT and the PATCH handler filter incoming
fields through (lines 336 and 381). -/
def babyUpdatableFields : List String :=
  ["name", "dateOfBirth", "gender", "premature", "gestationalWeek",
   "birthWeight", "birthHeight", "headCircumference"]

/-- The item the POST handler puts (lines 267–281): the fixed key set,
with `premature` defaulted to `False` and `isActive` set `True`.
`nowV`/`trueV`/`falseV` are the timestamp and boolean values. -/
def createBabyItem (bid uid nowV trueV falseV : α) (data : String → Option α) :
    String → Option α := fun k =>
  if k = "babyId" then some bid
  else if k = "userId" then some uid
  else if k = "name" then data "name"
  else if k = "dateOfBirth" then data "dateOfBirth"
  else if k = "gender" then data "gender"
  else if k = "premature" then some ((data "premature").getD falseV)
  else if k = "gestationalWeek" then data "gestationalWeek"
  else if k = "birthWeight" then data "birthWeight"
  else if k = "birthHeight" then data "birthHeight"
  else if k = "headCircumference" then data "headCircumference"
  else if k = "isActive" then some trueV
  else if k = "createdAt" then some nowV
  else if k = "modifiedAt" then some nowV
  else none

/-- Every write the backend performs on an existing baby item. -/
inductive BabyWrite (α : Type u) where
  /-- PUT / PATCH: `update_fields` filtered through the whitelist, plus
  `modifiedAt` (lines 336–352 and 381–400). -/
  | patch (data : String → Option α) (nowV : α)
  /-- Projector transaction: `SET birthDataId = if_not_exists(...)`. -/
  | setBirthDataId (v : α)
  /-- Projector transaction: `REMOVE birthDataId`. -/
  | removeBirthDataId
  /-- FULL / BIRTH_ONLY persist: `SET birthPercentiles = :bp`. -/
  | setBirthPercentiles (v : α)
  /-- DELETE (logical): `SET isActive = :inactive, modifiedAt = :modified`. -/
  | deactivate (falseV nowV : α)

/-- Apply one write to a baby item. -/
def applyBabyWrite (item : String → Option α) : BabyWrite α → (String → Option α)
  | .patch data nowV => fun k =>
      if k = "modifiedAt" then some nowV
      else if k ∈ babyUpdatableFields ∧ (data k).isSome then data k
      else item k
  | .setBirthDataId v => fun k =>
      if k = "birthDataId" then some ((item "birthDataId").getD v) else item k
  | .removeBirthDataId => fun k =>
      if k = "birthDataId" then none else item k
  | .setBirthPercentiles v => fun k =>
      if k = "birthPercentiles" then some v else item k
  | .deactivate falseV nowV => fun k =>
      if k = "isActive" then some falseV
      else if k = "modifiedAt" then some nowV
      else item k

/-- The `measurements` map of the synthetic birth record the BIRTH_ONLY
path builds when no persisted birth record matches (lines 602–616): note
the head-circumference entry reads the `birthCircumference` key. -/
def synthBirthMeasurements (baby : String → Option α) : List (String × Option α) :=
  [("weight", baby "birthWeight"),
   ("height", baby "birthHeight"),
   ("headCircumference", baby "birthCircumference")]

/-! ## Concrete fixtures for witnesses and counterexamples -/

/-- A concrete `MathFns` instantiation; its `erf` is constantly `0`,
inside the documented range `[-1, 1]`. -/
def mfW : MathFns := { pw := fun _ _ => 1, lg := fun _ => 0, erf := fun _ => 0, sqrt2 := 1 }

/-- A table source with one well-formed row (`M > 0`, `S > 0`) at day 0. -/
def tablesW : TableSource := fun _ _ => [(0, { L := 1, M := 1, S := 1 })]

/-- A table source whose only row is degenerate (`S = 0`). -/
def tablesDeg : TableSource := fun _ _ => [(0, { L := 0, M := 1, S := 0 })]

/-- A growth item carrying a single-metric percentile cache. -/
def itemC4 : GrowthItem :=
  { dataId := "d1", babyId := "b1", userId := "u1", measurementDate := some 10
    measurements := [("weight", some 3000)], measurementSource := "manual"
    percentiles := some [("weight", 50)], createdAt := 0, updatedAt := 0 }

/-- A one-item growth table around `itemC4`. -/
def storeC4 : GrowthTable := [("d1", itemC4)]

/-- A growth item whose cache has all three metrics. -/
def itemC4full : GrowthItem :=
  { itemC4 with percentiles := some [("weight", 50), ("height", 60), ("headCircumference", 40)] }

/-- A one-item growth table around `itemC4full`. -/
def storeC4full : GrowthTable := [("d1", itemC4full)]

/-- A baby stream image with a birth measurement but no `birthDataId`
(the shape of the INSERT image produced by POST /babies). -/
def imgNoPtr : BabyImage :=
  { babyId := some "b1", userId := some "u1", dateOfBirth := some 100
    gender := some "male", birthWeight := some 3200 }

/-- A baby stream image that carries its `birthDataId` pointer. -/
def imgPtr : BabyImage := { imgNoPtr with birthDataId := some "bd1" }

/-- A MODIFY stream record whose images are identical (so no cascade
invalidation runs) and whose after-image carries no `birthDataId`. -/
def recReplay : StreamRecord :=
  { eventName := "MODIFY", newImage := some imgNoPtr, oldImage := some imgNoPtr }

/-- The empty store pair. -/
def projEmpty : ProjState := { growth := [], babies := [] }

/-- First delivery of `recReplay` (fresh uuid `"g1"`, time 1). -/
def s9a : ProjState := processRecord true "g1" 1 projEmpty recReplay

/-- Replay of the same record (fresh uuid `"g2"`, time 2). -/
def s9b : ProjState := processRecord true "g2" 2 s9a recReplay

/-- First upsert of `imgNoPtr` into the empty store (fresh uuid `"g1"`). -/
def s5a : ProjState :=
  _upsert_birth_growth_item true "g1" 1 projEmpty imgNoPtr
    (_normalize_numeric_fields (_extract_birth_measurements imgNoPtr))

/-- Replayed upsert of `imgNoPtr` (fresh uuid `"g2"`). -/
def s5b : ProjState :=
  _upsert_birth_growth_item true "g2" 2 s5a imgNoPtr
    (_normalize_numeric_fields (_extract_birth_measurements imgNoPtr))

/-- A store in which `imgPtr`'s pointer and birth record exist. -/
def sPtr : ProjState :=
  { growth := [("bd1",
      { dataId := "bd1", babyId := "b1", userId := "u1", measurementDate := some 100
        measurements := [("weight", some 3200)], measurementSource := "birth"
        percentiles := none, createdAt := 0, updatedAt := 0 })]
    babies := [("b1", some "bd1")] }

/-- A store whose stored pointer (`"g2"`) disagrees with the pointer an
older (replayed) stream image carries (`"g1"`). -/
def sMis : ProjState :=
  { growth := [("g2",
      { dataId := "g2", babyId := "b1", userId := "u1", measurementDate := some 100
        measurements := [("weight", some 3200)], measurementSource := "birth"
        percentiles := none, createdAt := 0, updatedAt := 0 })]
    babies := [("b1", some "g2")] }

/-- The pointer-carrying image whose `birthDataId` (`"g1"`) no longer
matches the stored pointer of `sMis`. -/
def imgMis : BabyImage := { imgNoPtr with birthDataId := some "g1" }

/-- Upsert of the mismatching pointer-carrying image into `sMis`. -/
def s5c : ProjState :=
  _upsert_birth_growth_item true "f9" 7 sMis imgMis [("weight", some 3200)]

/-- A growth item of subject `"b1"` stored under key `toString i`. -/
def bigItem (i : ℕ) : GrowthItem :=
  { dataId := toString i, babyId := "b1", userId := "u1", measurementDate := some 10
    measurements := [("weight", some 3000)], measurementSource := "manual"
    percentiles := some [("weight", 50)], createdAt := 0, updatedAt := 0 }

/-- A first query page holding 26 of the subject records. -/
def bigPage1 : List GrowthItem := (List.range 26).map bigItem

/-- The second query page holding the 27th record. -/
def bigPage2 : List GrowthItem := [bigItem 26]

/-- The store holding exactly those 27 records of subject `"b1"`. -/
def sBig : ProjState :=
  { growth := (bigPage1 ++ bigPage2).map fun it => (it.dataId, it), babies := [] }

/-- A stale growth item: measurement date (day 50) precedes the new
date of birth (day 100) used in the C6 evidence. -/
def itemStale : GrowthItem :=
  { dataId := "g1", babyId := "b1", userId := "u1", measurementDate := some 50
    measurements := [("weight", some 3000)], measurementSource := "manual"
    percentiles := none, createdAt := 0, updatedAt := 0 }

/-- A consistent-read oracle returning `itemStale` unchanged. -/
def fetchStale : String → Option GrowthItem :=
  fun i => if i = "g1" then some itemStale else none

/-- A store with two growth items of baby `"b1"` and one of `"b2"`,
all with a cached percentile map. -/
def storeC8 : ProjState :=
  { growth :=
      [("g1", { itemStale with dataId := "g1", percentiles := some [("weight", 50)] }),
       ("g2", { itemStale with dataId := "g2", percentiles := some [("height", 60)] }),
       ("h1", { itemStale with dataId := "h1", babyId := "b2", percentiles := some [("weight", 40)] })]
    babies := [] }

/-! ## Helper lemmas -/

theorem roundHalfEven_nonneg {x : ℚ} (hx : 0 ≤ x) : 0 ≤ roundHalfEven x := by
  have hf : (0 : ℤ) ≤ ⌊x⌋ := Int.floor_nonneg.mpr hx
  simp only [roundHalfEven]
  split_ifs <;> omega

theorem roundHalfEven_le {x : ℚ} {B : ℤ} (hx : x ≤ (B : ℚ)) : roundHalfEven x ≤ B := by
  have hfB : ⌊x⌋ ≤ B := by
    have h := Int.floor_le_floor hx
    simpa using h
  have hlt : ¬(x - (⌊x⌋ : ℚ) < 1/2) → ⌊x⌋ + 1 ≤ B := by
    intro hr
    push_neg at hr
    have h2 : ((⌊x⌋ : ℤ) : ℚ) < (B : ℚ) := by linarith
    have h3 : ⌊x⌋ < B := by exact_mod_cast h2
    omega
  simp only [roundHalfEven]
  split_ifs with h1 h2 h3
  · exact hfB
  · exact hlt h1
  · exact hfB
  · exact hlt h1

theorem pyRound2_bounds {x : ℚ} (h0 : 0 ≤ x) (h1 : x ≤ 100) :
    0 ≤ pyRound x 2 ∧ pyRound x 2 ≤ 100 := by
  have hr0 : 0 ≤ roundHalfEven (x * 10 ^ 2) := roundHalfEven_nonneg (by positivity)
  have hr1 : roundHalfEven (x * 10 ^ 2) ≤ (10000 : ℤ) := by
    apply roundHalfEven_le
    push_cast
    nlinarith
  unfold pyRound
  constructor
  · apply div_nonneg
    · exact_mod_cast hr0
    · norm_num
  · rw [div_le_iff₀ (by norm_num : (0:ℚ) < 10 ^ 2)]
    have : (roundHalfEven (x * 10 ^ 2) : ℚ) ≤ (10000 : ℚ) := by exact_mod_cast hr1
    nlinarith

theorem lms_zscore_some (mf : MathFns) {value L M S : ℚ}
    (hv : 0 < value) (hM : 0 < M) (hS : 0 < S) :
    ∃ z, lms_zscore mf value L M S = some z := by
  unfold lms_zscore
  rw [if_neg (by push_neg; exact ⟨hv, hM, hS⟩)]
  split_ifs <;> exact ⟨_, rfl⟩

theorem _phi_bounds (mf : MathFns) (herf : ∀ y, -1 ≤ mf.erf y ∧ mf.erf y ≤ 1) (z : ℚ) :
    0 ≤ _phi mf z ∧ _phi mf z ≤ 1 := by
  obtain ⟨ha, hb⟩ := herf (z / mf.sqrt2)
  unfold _phi
  constructor <;> linarith

/-- Reduction of `compute_percentile` on a valid input whose LMS row is
`row`. -/
theorem compute_percentile_ok (mf : MathFns) (tables : TableSource)
    {mt sx : String} {v : ℚ} {bd md : ℤ} {row : LMSRow}
    (hmt : mt ∈ ["weight", "height", "headCircumference"])
    (hsx : sx ∈ ["male", "female"])
    (hv : 0 < v) (hage : bd ≤ md)
    (hrow : get_lms (tables mt sx) (md - bd) = .ok row) :
    compute_percentile mf tables mt sx v bd md =
      .ok { measurementType := mt
            value := v
            percentile := ((zscore_to_percentile mf
              (lms_zscore mf (if mt = "weight" then v / 1000 else v) row.L row.M row.S)).map
                (pyRound · 2))
            zscore := ((lms_zscore mf (if mt = "weight" then v / 1000 else v) row.L row.M row.S).map
                (pyRound · 4))
            ageInDays := md - bd
            sex := sx
            lmsL := pyRound row.L 6
            lmsM := pyRound row.M 6
            lmsS := pyRound row.S 6 } := by
  have hage' : _calc_age_in_days bd md = .ok (md - bd) := by
    unfold _calc_age_in_days
    rw [if_neg (not_lt.mpr hage)]
  unfold compute_percentile
  rw [if_neg (by simp [hmt]), if_neg (by simp [hsx]), if_neg (not_le.mpr hv)]
  simp only [hage', hrow]

/-- `compute_percentile` fails (with some message) whenever the
measurement date precedes the birth date. -/
theorem compute_percentile_isError_of_lt (mf : MathFns) (tables : TableSource)
    (mt sx : String) (v : ℚ) {bd md : ℤ} (h : md < bd) :
    ∃ e, compute_percentile mf tables mt sx v bd md = .error e := by
  have hage' : _calc_age_in_days bd md = .error "Measurement date cannot be before birth date" := by
    unfold _calc_age_in_days
    rw [if_pos h]
  unfold compute_percentile
  split_ifs <;> first
    | exact ⟨_, rfl⟩
    | · simp only [hage']
        exact ⟨_, rfl⟩

/-- `compute_percentiles` collapses to the empty map when the
measurement date precedes the date of birth: every per-metric call
raises and is caught. -/
theorem compute_percentiles_empty_of_lt (mf : MathFns) (tables : TableSource)
    (g : String) {dob md : ℤ} (msmts : List (String × Option ℚ)) (h : md < dob) :
    compute_percentiles mf tables ⟨some g, some dob⟩ (some md) msmts = .ok [] := by
  unfold compute_percentiles
  simp only
  have hstep : ∀ (acc : List (String × Option ℚ)) (x : String × Option ℚ),
      (match x.2 with
       | none => acc
       | some v =>
         if x.1 ∈ _DIR_MAP_keys then
           match compute_percentile mf tables x.1 g v dob md with
           | .ok r => acc ++ [(x.1, r.percentile)]
           | .error _ => acc
         else acc) = acc := by
    intro acc x
    cases hx : x.2 with
    | none => rfl
    | some v =>
      simp only
      split_ifs with hk
      · obtain ⟨e, he⟩ := compute_percentile_isError_of_lt mf tables x.1 g v h
        rw [he]
      · rfl
  have hfold : ∀ (l : List (String × Option ℚ)) (acc : List (String × Option ℚ)),
      List.foldl (fun acc x =>
        match x.2 with
        | none => acc
        | some v =>
          if x.1 ∈ _DIR_MAP_keys then
            match compute_percentile mf tables x.1 g v dob md with
            | .ok r => acc ++ [(x.1, r.percentile)]
            | .error _ => acc
          else acc) acc l = acc := by
    intro l
    induction l with
    | nil => intro acc; rfl
    | cons x xs ih =>
      intro acc
      rw [List.foldl_cons, hstep acc x, ih acc]
  rw [hfold]

/-! ## Claim C1 -/

/-- C1 counterexample: with measurement date (day −1) strictly before
the date of birth (day 0), the multi-metric `compute_percentiles` does
NOT fail with an `InvalidDateRange` error — it catches the per-metric
exception and succeeds with an empty result map. -/
theorem C1_counterexample :
    compute_percentiles mfW tablesW ⟨some "male", some 0⟩ (some (-1))
        [("weight", some 3000)] = .ok [] ∧
    ∀ e, compute_percentiles mfW tablesW ⟨some "male", some 0⟩ (some (-1))
        [("weight", some 3000)] ≠ .error e := by
  have h : compute_percentiles mfW tablesW ⟨some "male", some 0⟩ (some (-1))
      [("weight", some 3000)] = .ok [] := rfl
  refine ⟨h, ?_⟩
  intro e he
  rw [h] at he
  exact Except.noConfusion he

/-- C1 (amended): for any measurement date strictly before the date of
birth, the single-metric `compute_percentile` fails with the
`InvalidDateRange` error, while the multi-metric `compute_percentiles`
swallows the per-metric failure and returns a result with no numeric
percentile for any measurement type (the empty map) — it never raises. -/
theorem C1_amended (mf : MathFns) (tables : TableSource)
    (mt sx g : String) (v : ℚ) {dob md : ℤ}
    (msmts : List (String × Option ℚ))
    (hmt : mt ∈ ["weight", "height", "headCircumference"])
    (hsx : sx ∈ ["male", "female"])
    (hv : 0 < v)
    (hlt : md < dob) :
    compute_percentile mf tables mt sx v dob md =
      .error "Measurement date cannot be before birth date" ∧
    compute_percentiles mf tables ⟨some g, some dob⟩ (some md) msmts = .ok [] := by
  constructor
  · have hage' : _calc_age_in_days dob md =
        .error "Measurement date cannot be before birth date" := by
      unfold _calc_age_in_days
      rw [if_pos hlt]
    unfold compute_percentile
    rw [if_neg (by simp [hmt]), if_neg (by simp [hsx]), if_neg (not_le.mpr hv)]
    simp only [hage']
  · exact compute_percentiles_empty_of_lt mf tables g msmts hlt

/-- C1 witness: the amended claim at a concrete input. -/
theorem C1_witness :
    compute_percentile mfW tablesW "weight" "male" 3000 0 (-1) =
      .error "Measurement date cannot be before birth date" ∧
    compute_percentiles mfW tablesW ⟨some "female", some 0⟩ (some (-1))
      [("weight", some 3000), ("height", none)] = .ok [] :=
  C1_amended mfW tablesW "weight" "male" "female" 3000
    [("weight", some 3000), ("height", none)]
    (by decide) (by decide) (by norm_num) (by decide)

/-! ## Claim C2 -/

/-- C2: for a valid measurement type and sex, a positive value, an age
reachable from a reference row with `M > 0` and `S > 0`, and an `erf`
within its documented range, `compute_percentile` succeeds with a
percentile in `[0, 100]`; and the function is deterministic — the same
inputs produce the identical rounded result. -/
theorem C2_percentile_in_range_deterministic
    (mf : MathFns) (tables : TableSource) (row : LMSRow) {mt sx : String}
    {v : ℚ} {bd md : ℤ}
    (herf : ∀ y, -1 ≤ mf.erf y ∧ mf.erf y ≤ 1)
    (hmt : mt ∈ ["weight", "height", "headCircumference"])
    (hsx : sx ∈ ["male", "female"])
    (hv : 0 < v) (hage : bd ≤ md)
    (hrow : get_lms (tables mt sx) (md - bd) = .ok row)
    (hM : 0 < row.M) (hS : 0 < row.S) :
    (∃ r p, compute_percentile mf tables mt sx v bd md = .ok r ∧
      r.percentile = some p ∧ 0 ≤ p ∧ p ≤ 100) ∧
    compute_percentile mf tables mt sx v bd md =
      compute_percentile mf tables mt sx v bd md := by
  refine ⟨?_, rfl⟩
  have hred := compute_percentile_ok mf tables hmt hsx hv hage hrow
  have hvf : 0 < (if mt = "weight" then v / 1000 else v) := by
    split_ifs <;> positivity
  obtain ⟨z, hz⟩ := lms_zscore_some mf (L := row.L) hvf hM hS
  obtain ⟨h0, h1⟩ := _phi_bounds mf herf z
  refine ⟨_, pyRound (_phi mf z * 100) 2, hred, ?_, ?_, ?_⟩
  · simp only [hz]
    rfl
  · exact (pyRound2_bounds (by positivity) (by linarith)).1
  · exact (pyRound2_bounds (by positivity) (by linarith)).2

/-- C2 witness: the theorem applied at a concrete input (weight 1 g at
age 0 against the one-row table with `L = M = S = 1`). -/
theorem C2_witness :
    ∃ r p, compute_percentile mfW tablesW "weight" "male" 1 0 0 = .ok r ∧
      r.percentile = some p ∧ 0 ≤ p ∧ p ≤ 100 :=
  (C2_percentile_in_range_deterministic mfW tablesW ⟨1, 1, 1⟩
    (by intro y; constructor <;> norm_num [mfW])
    (by decide) (by decide) (by norm_num) (by decide)
    (by rfl) (by norm_num) (by norm_num)).1

/-! ## Claim C7 -/

/-- C7 counterexample: with a degenerate reference row (`S = 0`) and a
positive value, the computation does not fail with an
`InvalidLMSParameters` error — `compute_percentile` succeeds and the
returned percentile and z-score are the float `nan` (modelled `none`). -/
theorem C7_counterexample :
    compute_percentile mfW tablesDeg "height" "male" 50 0 0 =
      .ok { measurementType := "height", value := 50, percentile := none,
            zscore := none, ageInDays := 0, sex := "male",
            lmsL := 0, lmsM := 1, lmsS := 0 } := by
  have hrow : get_lms (tablesDeg "height" "male") (0 - 0) = .ok ⟨0, 1, 0⟩ := rfl
  have hred := @compute_percentile_ok mfW tablesDeg "height" "male" 50 0 0 ⟨0, 1, 0⟩
    (by decide) (by decide) (by norm_num) (by decide) hrow
  rw [hred]
  norm_num [lms_zscore, zscore_to_percentile, pyRound, roundHalfEven]

/-- C7 (amended): for `S ≤ 0` or `M ≤ 0` or `value ≤ 0`, `lms_zscore`
silently returns the float `nan` (modelled `none`) rather than raising,
and `zscore_to_percentile` propagates the `nan`; no
`InvalidLMSParameters` error exists in the code. -/
theorem C7_amended (mf : MathFns) (v L M S : ℚ)
    (h : v ≤ 0 ∨ M ≤ 0 ∨ S ≤ 0) :
    lms_zscore mf v L M S = none ∧
    zscore_to_percentile mf (lms_zscore mf v L M S) = none := by
  have hz : lms_zscore mf v L M S = none := by
    unfold lms_zscore
    rw [if_pos h]
  exact ⟨hz, by rw [hz]; rfl⟩

/-- C7 witness: the amended claim at `S = 0`. -/
theorem C7_witness :
    lms_zscore mfW 1 1 1 0 = none ∧
    zscore_to_percentile mfW (lms_zscore mfW 1 1 1 0) = none :=
  C7_amended mfW 1 1 1 0 (by norm_num)

/-! ## Claim C3 -/

/-- C3: `classify` is total (it is a function) and satisfies, in
priority order: a changed set meeting {dateOfBirth, gender} is FULL
regardless of co-occurring birth-measurement changes; otherwise one
meeting {birthWeight, birthHeight, headCircumference} is BIRTH_ONLY;
otherwise (e.g. only a name-like field) NONE. -/
theorem C3_classify_total_priority (changed_keys : List String) :
    (classify changed_keys = .FULL ↔
      ∃ k ∈ changed_keys, k ∈ structural_fields) ∧
    (classify changed_keys = .BIRTH_ONLY ↔
      (¬∃ k ∈ changed_keys, k ∈ structural_fields) ∧
      ∃ k ∈ changed_keys, k ∈ birth_measure_fields) ∧
    (classify changed_keys = .NONE ↔
      (¬∃ k ∈ changed_keys, k ∈ structural_fields) ∧
      ¬∃ k ∈ changed_keys, k ∈ birth_measure_fields) := by
  unfold classify
  by_cases h1 : changed_keys.any (fun k => k ∈ structural_fields)
  · rw [List.any_eq_true] at h1
    simp only [List.any_eq_true, decide_eq_true_eq] at h1 ⊢
    rw [if_pos h1]
    refine ⟨⟨fun _ => h1, fun _ => rfl⟩, ?_, ?_⟩
    · constructor
      · intro hc
        exact absurd hc (by simp)
      · rintro ⟨hn, _⟩
        exact absurd h1 hn
    · constructor
      · intro hc
        exact absurd hc (by simp)
      · rintro ⟨hn, _⟩
        exact absurd h1 hn
  · rw [List.any_eq_true] at h1
    simp only [List.any_eq_true, decide_eq_true_eq] at h1 ⊢
    rw [if_neg h1]
    by_cases h2 : ∃ k ∈ changed_keys, k ∈ birth_measure_fields
    · rw [if_pos (by simpa using h2)]
      refine ⟨?_, ⟨fun _ => ⟨h1, h2⟩, fun _ => rfl⟩, ?_⟩
      · constructor
        · intro hc
          exact absurd hc (by simp)
        · intro hc
          exact absurd hc h1
      · constructor
        · intro hc
          exact absurd hc (by simp)
        · rintro ⟨_, hn⟩
          exact absurd h2 hn
    · rw [if_neg (by simpa using h2)]
      refine ⟨?_, ?_, ⟨fun _ => ⟨h1, h2⟩, fun _ => rfl⟩⟩
      · constructor
        · intro hc
          exact absurd hc (by simp)
        · intro hc
          exact absurd hc h1
      · constructor
        · intro hc
          exact absurd hc (by simp)
        · rintro ⟨_, hc⟩
          exact absurd hc h2

/-! ## Claim C4 -/

/-- C4 counterexample: the stored percentile cache and the freshly
computed percentiles are identical maps (`{"weight": 50}`), yet
`_update_item_if_needed` performs the write — the cache is rewritten and
`updatedAt` moves from 0 to 1 — because `_percentiles_equal` demands a
value for all three metric keys in both maps. -/
theorem C4_counterexample :
    (List.lookup "d1" storeC4).bind (·.percentiles) = some [("weight", 50)] ∧
    _update_item_if_needed 1 storeC4 "d1" [("weight", 50)] =
      [("d1", { itemC4 with percentiles := some [("weight", 50)], updatedAt := 1 })] ∧
    _update_item_if_needed 1 storeC4 "d1" [("weight", 50)] ≠ storeC4 := by
  have h2 : _update_item_if_needed 1 storeC4 "d1" [("weight", 50)] =
      [("d1", { itemC4 with percentiles := some [("weight", 50)], updatedAt := 1 })] := by
    simp [_update_item_if_needed, _percentiles_equal, pctKeys, storeC4, itemC4, List.lookup]
  refine ⟨rfl, h2, ?_⟩
  rw [h2]
  simp [storeC4, itemC4]

/-- C4 (amended): the stream processor's conditional update skips the
write — leaving the store, hence the cache and its `updatedAt`, bitwise
unchanged — exactly when `_percentiles_equal` accepts the stored and
fresh maps, which requires both maps to hold values for all of weight,
height and headCircumference, pairwise equal after 2-decimal rounding;
an equal map missing a metric is rewritten (see the counterexample). -/
theorem C4_amended (now : ℕ) (store : GrowthTable) (data_id : String)
    (fresh : List (String × ℚ))
    (h : _percentiles_equal ((List.lookup data_id store).bind (·.percentiles))
      (some fresh) = true) :
    _update_item_if_needed now store data_id fresh = store := by
  unfold _update_item_if_needed
  simp only [h, if_true]

/-- C4 witness: with all three metrics present and equal, the write is
skipped. -/
theorem C4_witness :
    _update_item_if_needed 1 storeC4full "d1"
      [("weight", 50), ("height", 60), ("headCircumference", 40)] = storeC4full :=
  C4_amended 1 storeC4full "d1" [("weight", 50), ("height", 60), ("headCircumference", 40)]
    (by simp [_percentiles_equal, pctKeys, storeC4full, itemC4full, itemC4, List.lookup])

/-! ## Claim C10 -/

/-- C10: for every baby item produced by the create path and any
sequence of update-path writes — including ones that set the
`headCircumference` attribute — the `birthCircumference` attribute is
never written and stays absent, so the synthetic birth record the
BIRTH_ONLY path builds always carries `measurements.headCircumference =
None` (it reads the never-written `birthCircumference` key). -/
theorem C10_synthetic_head_circumference_none {α : Type}
    (bid uid nowV trueV falseV : α) (data : String → Option α)
    (writes : List (BabyWrite α)) :
    (writes.foldl applyBabyWrite (createBabyItem bid uid nowV trueV falseV data))
        "birthCircumference" = none ∧
    List.lookup "headCircumference"
      (synthBirthMeasurements
        (writes.foldl applyBabyWrite (createBabyItem bid uid nowV trueV falseV data))) =
      some none := by
  have hinv : ∀ (item : String → Option α), item "birthCircumference" = none →
      ∀ w : BabyWrite α, applyBabyWrite item w "birthCircumference" = none := by
    intro item hit w
    cases w <;> simp [applyBabyWrite, babyUpdatableFields, hit]
  have hbase : createBabyItem bid uid nowV trueV falseV data "birthCircumference" = none := by
    simp [createBabyItem]
  have hfold : ∀ (ws : List (BabyWrite α)) (item : String → Option α),
      item "birthCircumference" = none →
      (ws.foldl applyBabyWrite item) "birthCircumference" = none := by
    intro ws
    induction ws with
    | nil => intro item hit; exact hit
    | cons w ws ih =>
      intro item hit
      exact ih _ (hinv item hit w)
  refine ⟨hfold writes _ hbase, ?_⟩
  simp [synthBirthMeasurements, List.lookup, hfold writes _ hbase]

/-! ## Claim C6 -/

/-- C6 evidence: a growth record whose measurement date (day 50)
precedes the new date of birth (day 100) — the `InvalidDateRange`
situation the claim covers — is processed with a single
`compute_percentiles` call, no strongly-consistent re-fetch and no
retry, and ends as a skip (empty percentile map): the multi-metric
calculator swallows the per-metric date error and returns `{}` instead
of raising, so the `"before birth date"` retry branch of the
orchestrator is unreachable. -/
theorem C6_no_retry_on_stale_date :
    compute_percentiles mfW tablesW ⟨some "male", some 100⟩ (some 50)
        [("weight", some 3000)] = .ok [] ∧
    processFullItem mfW tablesW (some "male") (some 100) none fetchStale itemStale =
      { pct := [], attempts := 1, refetched := false } := by
  have h : compute_percentiles mfW tablesW ⟨some "male", some 100⟩ (some 50)
      [("weight", some 3000)] = .ok [] :=
    compute_percentiles_empty_of_lt mfW tablesW "male" [("weight", some 3000)] (by norm_num)
  refine ⟨h, ?_⟩
  unfold processFullItem
  simp only [_coerce_measurements_to_float, itemStale]
  rw [show (if ("g1" : String) ≠ "" ∧ (none : Option String) = some "g1" ∧
      (some (50 : ℤ)) ≠ some (100 : ℤ) then some (100 : ℤ) else some 50) = some 50 from by simp]
  rw [h]

theorem chunks25_flatten {α : Type} (l : List α) : (chunks25 l).flatten = l := by
  induction l using chunks25.induct with
  | case1 l h =>
    rw [chunks25, dif_pos h]
    exact (List.isEmpty_iff.mp h).symm
  | case2 l h ih =>
    rw [chunks25, dif_neg h]
    simp [ih]

theorem chunks25_length {α : Type} (l : List α) :
    (chunks25 l).length = (l.length + 24) / 25 := by
  induction l using chunks25.induct with
  | case1 l h =>
    rw [chunks25, dif_pos h]
    rw [List.isEmpty_iff] at h
    simp [h]
  | case2 l h ih =>
    rw [chunks25, dif_neg h]
    rw [List.isEmpty_iff] at h
    have hl : 0 < l.length := List.length_pos.mpr h
    simp only [List.length_cons, ih, List.length_drop]
    omega

theorem chunks25_mem {α : Type} {l : List α} {c : List α} (hc : c ∈ chunks25 l) :
    c.length ≤ 25 ∧ c ≠ [] := by
  induction l using chunks25.induct with
  | case1 l h =>
    rw [chunks25, dif_pos h] at hc
    exact absurd hc (List.not_mem_nil c)
  | case2 l h ih =>
    rw [chunks25, dif_neg h] at hc
    rw [List.mem_cons] at hc
    rcases hc with hc | hc
    · subst hc
      constructor
      · simpa using List.length_take_le 25 l
      · rw [List.isEmpty_iff] at h
        intro hn
        rcases List.take_eq_nil_iff.mp hn with hn | hn
        · omega
        · exact h hn
    · exact ih hc

theorem chunks25_map {α β : Type} (f : α → β) (l : List α) :
    chunks25 (l.map f) = (chunks25 l).map (·.map f) := by
  induction l using chunks25.induct with
  | case1 l h =>
    have h2 : (l.map f).isEmpty = true := by simpa using h
    conv_lhs => rw [chunks25, dif_pos h2]
    conv_rhs => rw [chunks25, dif_pos h]
    rfl
  | case2 l h ih =>
    have h2 : ¬(l.map f).isEmpty = true := by simpa using h
    conv_lhs => rw [chunks25, dif_neg h2]
    conv_rhs => rw [chunks25, dif_neg h]
    simp only [List.map_cons, List.cons.injEq]
    refine ⟨by rw [List.map_take], ?_⟩
    rw [← List.map_drop, ih]

theorem lookup_eq_none_forall {α : Type} {l : List (String × α)} {k : String}
    (h : List.lookup k l = none) : ∀ p ∈ l, p.1 ≠ k := by
  induction l with
  | nil => intro p hp; exact absurd hp (List.not_mem_nil p)
  | cons q t ih =>
    intro p hp
    rw [List.lookup] at h
    by_cases hq : k = q.1
    · rw [beq_iff_eq.mpr hq] at h
      exact absurd h (by simp)
    · rw [beq_eq_false_iff_ne.mpr hq] at h
      rcases List.mem_cons.mp hp with rfl | hp2
      · exact fun hc => hq hc.symm
      · exact ih h p hp2

theorem lookup_append_self {α : Type} (l : List (String × α)) (k : String) (v : α)
    (h : List.lookup k l = none) : List.lookup k (l ++ [(k, v)]) = some v := by
  induction l with
  | nil => simp [List.lookup]
  | cons q t ih =>
    rw [List.lookup] at h
    by_cases hq : k = q.1
    · rw [beq_iff_eq.mpr hq] at h
      exact absurd h (by simp)
    · rw [beq_eq_false_iff_ne.mpr hq] at h
      rw [List.cons_append, List.lookup, beq_eq_false_iff_ne.mpr hq]
      exact ih h

theorem lookup_append_ne {α : Type} (l : List (String × α)) (k k' : String) (v : α)
    (h : k' ≠ k) : List.lookup k' (l ++ [(k, v)]) = List.lookup k' l := by
  induction l with
  | nil => simp [List.lookup, beq_eq_false_iff_ne.mpr h]
  | cons q t ih =>
    rw [List.cons_append, List.lookup, List.lookup]
    by_cases hq : k' = q.1
    · rw [beq_iff_eq.mpr hq]
    · rw [beq_eq_false_iff_ne.mpr hq]
      exact ih

theorem lookup_replace_self {α : Type} (l : List (String × α)) (k : String) (v : α)
    (h : (List.lookup k l).isSome) :
    List.lookup k (l.map fun p => if p.1 = k then (k, v) else p) = some v := by
  induction l with
  | nil => simp [List.lookup] at h
  | cons q t ih =>
    rw [List.lookup] at h
    by_cases hq : q.1 = k
    · simp only [List.map_cons, if_pos hq]
      rw [List.lookup, beq_iff_eq.mpr rfl]
    · have hq2 : ¬(k = q.1) := fun hc => hq hc.symm
      rw [beq_eq_false_iff_ne.mpr hq2] at h
      simp only [List.map_cons, if_neg hq]
      rw [List.lookup, beq_eq_false_iff_ne.mpr hq2]
      exact ih h

theorem lookup_replace_ne {α : Type} (l : List (String × α)) (k k' : String) (v : α)
    (h : k' ≠ k) :
    List.lookup k' (l.map fun p => if p.1 = k then (k, v) else p) = List.lookup k' l := by
  induction l with
  | nil => rfl
  | cons q t ih =>
    by_cases hq : q.1 = k
    · have hq2 : ¬(k' = q.1) := fun hc => h (hc.trans hq)
      simp only [List.map_cons, if_pos hq]
      rw [List.lookup, List.lookup, beq_eq_false_iff_ne.mpr h, beq_eq_false_iff_ne.mpr hq2]
      exact ih
    · simp only [List.map_cons, if_neg hq]
      rw [List.lookup, List.lookup]
      by_cases hk : k' = q.1
      · rw [beq_iff_eq.mpr hk]
      · rw [beq_eq_false_iff_ne.mpr hk]
        exact ih

theorem lookup_assocPut_self {α : Type} (l : List (String × α)) (k : String) (v : α) :
    List.lookup k (assocPut l k v) = some v := by
  unfold assocPut
  by_cases h : (List.lookup k l).isSome
  · rw [if_pos h]
    exact lookup_replace_self l k v h
  · rw [if_neg h]
    exact lookup_append_self l k v (by
      rcases Option.isSome_iff_exists.not.mp h with h2
      push_neg at h2
      cases hl : List.lookup k l with
      | none => rfl
      | some w => exact absurd hl (h2 w))

theorem lookup_assocPut_ne {α : Type} (l : List (String × α)) (k k' : String) (v : α)
    (h : k' ≠ k) : List.lookup k' (assocPut l k v) = List.lookup k' l := by
  unfold assocPut
  by_cases hs : (List.lookup k l).isSome
  · rw [if_pos hs]
    exact lookup_replace_ne l k k' v h
  · rw [if_neg hs]
    exact lookup_append_ne l k k' v h

theorem foldl_applyRemoveBatch (g : GrowthTable) (bs : List (List String)) :
    bs.foldl applyRemoveBatch g =
      g.map fun p =>
        if p.1 ∈ bs.flatten then (p.1, { p.2 with percentiles := none }) else p := by
  induction bs generalizing g with
  | nil =>
    simp only [List.foldl_nil, List.flatten_nil, List.not_mem_nil, if_false]
    symm
    exact (List.map_congr_left fun a _ => by simp).trans (List.map_id g)
  | cons ids bs ih =>
    simp only [List.foldl_cons]
    rw [ih]
    unfold applyRemoveBatch
    rw [List.map_map]
    apply List.map_congr_left
    intro p _
    by_cases h1 : p.1 ∈ ids <;> by_cases h2 : p.1 ∈ bs.flatten <;>
      simp [Function.comp, h1, h2, List.flatten_cons, List.mem_append]

/-! ## Claim C8 -/

theorem batchesOfItems_sizes (items : List GrowthItem) :
    ∀ ids ∈ batchesOfItems items, ids.length ≤ 25 := by
  intro ids hids
  obtain ⟨c, hc, rfl⟩ := List.mem_map.mp (List.mem_filter.mp hids).1
  rw [List.length_map]
  exact le_trans (List.length_filter_le _ c) (chunks25_mem hc).1

theorem batchesOfItems_length (items : List GrowthItem)
    (h : ∀ it ∈ items, it.dataId ≠ "") :
    (batchesOfItems items).length = (items.length + 24) / 25 := by
  unfold batchesOfItems
  have hraw : ∀ c ∈ chunks25 items, (c.filter fun it => it.dataId ≠ "") = c := by
    intro c hc
    apply List.filter_eq_self.mpr
    intro it hit
    have hmem : it ∈ items := by
      rw [← chunks25_flatten items]
      exact List.mem_flatten.mpr ⟨c, hc, hit⟩
    simpa using h it hmem
  rw [List.map_congr_left fun c hc => by rw [hraw c hc]]
  have hnonempty : ∀ ids ∈ (chunks25 items).map (fun c => c.map (·.dataId)),
      ¬ids.isEmpty := by
    intro ids hids
    obtain ⟨c, hc, rfl⟩ := List.mem_map.mp hids
    have hcne := (chunks25_mem hc).2
    simp only [List.isEmpty_iff]
    intro hcon
    exact hcne (List.map_eq_nil_iff.mp hcon)
  rw [List.filter_eq_self.mpr (fun ids hids => by simpa using hnonempty ids hids)]
  rw [List.length_map, chunks25_length]

theorem batchesOfItems_cover (items : List GrowthItem)
    (h : ∀ it ∈ items, it.dataId ≠ "") :
    ∀ it ∈ items, it.dataId ∈ (batchesOfItems items).flatten := by
  intro it hit
  have hit2 : it ∈ (chunks25 items).flatten := by
    rw [chunks25_flatten]
    exact hit
  obtain ⟨c, hc, hitc⟩ := List.mem_flatten.mp hit2
  have hidm : it.dataId ∈ (c.filter fun x => x.dataId ≠ "").map (·.dataId) :=
    List.mem_map.mpr ⟨it, List.mem_filter.mpr ⟨hitc, by simpa using h it hit⟩, rfl⟩
  apply List.mem_flatten.mpr
  refine ⟨(c.filter fun x => x.dataId ≠ "").map (·.dataId), ?_, hidm⟩
  apply List.mem_filter.mpr
  refine ⟨List.mem_map.mpr ⟨c, hc, rfl⟩, ?_⟩
  simp only [decide_eq_true_eq, List.isEmpty_iff]
  intro hcon
  rw [hcon] at hidm
  exact List.not_mem_nil _ hidm

theorem remove_pages_eq (pages : List (List GrowthItem)) :
    ∀ s : ProjState, _remove_pages s pages =
      ({ s with growth :=
          ((pages.map batchesOfItems).flatten).foldl applyRemoveBatch s.growth },
        (pages.map batchesOfItems).flatten) := by
  induction pages with
  | nil =>
    intro s
    rfl
  | cons items rest ih =>
    intro s
    simp only [_remove_pages]
    rw [ih]
    simp only [List.map_cons, List.flatten_cons, List.foldl_append]

/-- C8 counterexample: 27 records of one subject (exceeding the 25-item
transaction ceiling) returned by the paginated index query in two pages
of 26 and 1 — a page split the store may choose — make the cascade issue
3 transactions, not ⌈27/25⌉ = 2: the per-page chunking cannot merge
records across a page boundary. -/
theorem C8_counterexample :
    (sBig.growth.filter fun p => p.2.babyId = "b1").length = 27 ∧
    [bigPage1, bigPage2].flatten =
      (sBig.growth.filter fun p => p.2.babyId = "b1").map (·.2) ∧
    ((_remove_percentiles_paged sBig "b1" [bigPage1, bigPage2]).2).length = 3 ∧
    (27 + 24) / 25 = 2 := by
  have hall : ∀ it ∈ bigPage1 ++ bigPage2, GrowthItem.babyId it = "b1" := by
    intro it hit
    rcases List.mem_append.mp hit with hm | hm
    · obtain ⟨i, _, rfl⟩ := List.mem_map.mp hm
      rfl
    · rw [show bigPage2 = [bigItem 26] from rfl] at hm
      simp only [List.mem_singleton] at hm
      subst hm
      rfl
  have hfe : sBig.growth.filter (fun p => p.2.babyId = "b1") = sBig.growth := by
    apply List.filter_eq_self.mpr
    intro p hp
    obtain ⟨it, hit, rfl⟩ := List.mem_map.mp hp
    simpa using hall it hit
  have hlen1 : bigPage1.length = 26 := by simp [bigPage1]
  have hne1 : ∀ it ∈ bigPage1, it.dataId ≠ "" := by decide
  have hne2 : ∀ it ∈ bigPage2, it.dataId ≠ "" := by decide
  refine ⟨?_, ?_, ?_, by norm_num⟩
  · rw [hfe]
    simp [sBig, bigPage1, bigPage2]
  · rw [hfe]
    have hmapid : ∀ l : List GrowthItem,
        List.map ((fun x : String × GrowthItem => x.2) ∘ fun it => (it.dataId, it)) l = l :=
      fun l => (List.map_congr_left fun a _ => rfl).trans (List.map_id l)
    simp [sBig, List.map_map, hmapid]
  · unfold _remove_percentiles_paged
    rw [if_neg (by decide), remove_pages_eq]
    simp only [List.map_cons, List.map_nil, List.flatten_cons, List.flatten_nil,
      List.length_append, List.append_nil]
    rw [batchesOfItems_length bigPage1 hne1, batchesOfItems_length bigPage2 hne2, hlen1]
    norm_num [bigPage2]

/-- C8 (amended): the cascade removes the subject's caches page by page:
each query page of nᵢ records yields ⌈nᵢ/25⌉ atomic transactions of at
most 25 removals each — Σᵢ ⌈nᵢ/25⌉ in total, which collapses to the
claimed ⌈N/25⌉ exactly in the single-page case — and afterwards every
one of the subject's records has its percentile cache cleared.  The
hypotheses say the pages are the query's answer (their concatenation is
the subject's record list) and the store is keyed by its own non-empty
`dataId`. -/
theorem C8_amended (s : ProjState) (baby_id : String)
    (pages : List (List GrowthItem))
    (hb : baby_id ≠ "")
    (hpages : pages.flatten = (s.growth.filter fun p => p.2.babyId = baby_id).map (·.2))
    (hkeys : ∀ p ∈ s.growth, p.2.dataId = p.1)
    (hne : ∀ p ∈ s.growth, p.1 ≠ "") :
    ((_remove_percentiles_paged s baby_id pages).2).length =
      (pages.map fun pg => (pg.length + 24) / 25).sum ∧
    (∀ ids ∈ (_remove_percentiles_paged s baby_id pages).2, ids.length ≤ 25) ∧
    (∀ p ∈ (_remove_percentiles_paged s baby_id pages).1.growth,
      p.2.babyId = baby_id → p.2.percentiles = none) ∧
    (∀ items, pages = [items] →
      ((_remove_percentiles_paged s baby_id pages).2).length =
        ((s.growth.filter fun p => p.2.babyId = baby_id).length + 24) / 25) := by
  have hitems : ∀ it ∈ pages.flatten, it.dataId ≠ "" := by
    intro it hit
    rw [hpages] at hit
    obtain ⟨q, hq, rfl⟩ := List.mem_map.mp hit
    have hqg : q ∈ s.growth := (List.mem_filter.mp hq).1
    rw [hkeys q hqg]
    exact hne q hqg
  have hpage : ∀ pg ∈ pages, ∀ it ∈ pg, it.dataId ≠ "" := by
    intro pg hpg it hit
    exact hitems it (List.mem_flatten.mpr ⟨pg, hpg, hit⟩)
  unfold _remove_percentiles_paged
  rw [if_neg hb, remove_pages_eq]
  refine ⟨?_, ?_, ?_, ?_⟩
  · rw [List.length_join, List.map_map]
    congr 1
    apply List.map_congr_left
    intro pg hpg
    simp only [Function.comp_apply]
    exact batchesOfItems_length pg (hpage pg hpg)
  · intro ids hids
    obtain ⟨bs, hbs, hidsbs⟩ := List.mem_flatten.mp hids
    obtain ⟨pg, hpg, rfl⟩ := List.mem_map.mp hbs
    exact batchesOfItems_sizes pg ids hidsbs
  · intro p hp hbaby
    rw [foldl_applyRemoveBatch] at hp
    obtain ⟨q, hq, hpq⟩ := List.mem_map.mp hp
    by_cases hin : q.1 ∈ ((pages.map batchesOfItems).flatten).flatten
    · rw [← hpq, if_pos hin]
    · rw [← hpq, if_neg hin] at hbaby
      exfalso
      apply hin
      have hqf : q ∈ s.growth.filter fun p => p.2.babyId = baby_id :=
        List.mem_filter.mpr ⟨hq, by simpa using hbaby⟩
      have hq2 : q.2 ∈ pages.flatten := by
        rw [hpages]
        exact List.mem_map.mpr ⟨q, hqf, rfl⟩
      obtain ⟨pg, hpg, hqpg⟩ := List.mem_flatten.mp hq2
      have hcov := batchesOfItems_cover pg (hpage pg hpg) q.2 hqpg
      obtain ⟨bch, hbch, hqb⟩ := List.mem_flatten.mp hcov
      apply List.mem_flatten.mpr
      refine ⟨bch, ?_, ?_⟩
      · exact List.mem_flatten.mpr ⟨batchesOfItems pg, List.mem_map.mpr ⟨pg, hpg, rfl⟩, hbch⟩
      · rwa [hkeys q hq] at hqb
  · intro items hpg1
    subst hpg1
    have hitems2 : items = (s.growth.filter fun p => p.2.babyId = baby_id).map (·.2) := by
      simpa using hpages
    simp only [List.map_cons, List.map_nil, List.flatten_cons, List.flatten_nil,
      List.length_append, List.append_nil]
    rw [batchesOfItems_length items (hpage items (by simp)), hitems2, List.length_map]

/-- C8 witness: the amended claim at the concrete three-record store
(two records of baby `"b1"`, one of `"b2"`) with the query returning a
single page: one transaction, all of `"b1"`'s caches cleared, and the
single-page count ⌈N/25⌉. -/
theorem C8_witness :
    ((_remove_percentiles_paged storeC8 "b1"
        [(storeC8.growth.filter fun p => p.2.babyId = "b1").map (·.2)]).2).length =
      ([(storeC8.growth.filter fun p => p.2.babyId = "b1").map (·.2)].map
        fun pg => (pg.length + 24) / 25).sum ∧
    (∀ ids ∈ (_remove_percentiles_paged storeC8 "b1"
        [(storeC8.growth.filter fun p => p.2.babyId = "b1").map (·.2)]).2,
      ids.length ≤ 25) ∧
    (∀ p ∈ (_remove_percentiles_paged storeC8 "b1"
        [(storeC8.growth.filter fun p => p.2.babyId = "b1").map (·.2)]).1.growth,
      p.2.babyId = "b1" → p.2.percentiles = none) ∧
    (∀ items, [(storeC8.growth.filter fun p => p.2.babyId = "b1").map (·.2)] = [items] →
      ((_remove_percentiles_paged storeC8 "b1"
          [(storeC8.growth.filter fun p => p.2.babyId = "b1").map (·.2)]).2).length =
        ((storeC8.growth.filter fun p => p.2.babyId = "b1").length + 24) / 25) :=
  C8_amended storeC8 "b1" [(storeC8.growth.filter fun p => p.2.babyId = "b1").map (·.2)]
    (by decide) (by simp) (by decide) (by decide)

/-! ## Claim C5 -/

/-- C5 counterexample, two reachable scenarios.  First: processing the
same birth-upsert image twice when the image carries no `birthDataId`
(the INSERT event of a subject created with birth measurements) leaves
TWO birth-sourced growth records for the one subject, the second
orphaned.  Second: even a pointer-carrying image violates the invariant
when its pointer (`"g1"`) disagrees with the subject's stored pointer
(`"g2"`, e.g. after a delete and re-add between the event and its
at-least-once redelivery): the upsert writes a second record at `"g1"`
while `if_not_exists` keeps the pointer at `"g2"`, so `"g1"` is an
orphaned birth record.  Both refute the claimed at-most-one / no-orphan
invariant; the upsert and pointer-set themselves are atomic. -/
theorem C5_counterexample :
    (s5b.growth.map Prod.fst = ["g1", "g2"] ∧
      (∀ p ∈ s5b.growth, p.2.babyId = "b1" ∧ p.2.measurementSource = "birth") ∧
      List.lookup "b1" s5b.babies = some (some "g1")) ∧
    (imgMis.birthDataId = some "g1" ∧
      s5c.growth.map Prod.fst = ["g2", "g1"] ∧
      (∀ p ∈ s5c.growth, p.2.babyId = "b1" ∧ p.2.measurementSource = "birth") ∧
      List.lookup "b1" s5c.babies = some (some "g2")) := by
  decide

/-- C5 (amended): the upsert's two effects are atomic — on a rejected
transaction nothing is applied, on a committed one the birth record is
written and the pointer set — and when the event image carries the
pointer `ptr` that is also the subject's stored pointer (or the pointer
is still absent), the committed state has the pointer referencing an
existing birth record aligned to the date of birth and no other growth
key is disturbed; so no orphan or dangling pointer arises for that
subject.  The invariant can fail only for images lacking `birthDataId`
(see the counterexample). -/
theorem C5_amended (txOk : Bool) (fid : String) (now : ℕ) (s : ProjState)
    (baby : BabyImage) (norm : List (String × Option ℚ))
    (b u ptr : String) (dob : ℤ)
    (hb : baby.babyId = some b) (hbne : b ≠ "")
    (hu : baby.userId = some u) (hune : u ≠ "")
    (hd : baby.dateOfBirth = some dob)
    (hp : baby.birthDataId = some ptr) (hpne : ptr ≠ "")
    (hptr : List.lookup b s.babies = some (some ptr) ∨
      List.lookup b s.babies = some none ∨ List.lookup b s.babies = none) :
    (txOk = false → _upsert_birth_growth_item txOk fid now s baby norm = s) ∧
    (txOk = true →
      (∃ it, List.lookup ptr (_upsert_birth_growth_item txOk fid now s baby norm).growth =
          some it ∧
        it.babyId = b ∧ it.measurementSource = "birth" ∧ it.measurementDate = some dob) ∧
      List.lookup b (_upsert_birth_growth_item txOk fid now s baby norm).babies =
        some (some ptr) ∧
      (∀ k, k ≠ ptr →
        List.lookup k (_upsert_birth_growth_item txOk fid now s baby norm).growth =
          List.lookup k s.growth)) := by
  unfold _upsert_birth_growth_item
  rw [hb, hu, hd, hp]
  simp only [isTruthy, Option.isSome_some, Bool.and_true, decide_eq_true_eq, hbne, hune,
    hpne, ne_eq, not_false_eq_true, Bool.and_self, if_true, Option.getD_some]
  constructor
  · intro h
    rw [h]
    rfl
  · intro h
    rw [h]
    simp only [if_true]
    refine ⟨⟨_, lookup_assocPut_self _ _ _, rfl, rfl, rfl⟩, ?_, ?_⟩
    · unfold setPointerIfAbsent
      rcases hptr with hc | hc | hc
      · rw [hc]
        exact hc
      · rw [hc]
        exact lookup_replace_self s.babies b (some ptr) (by rw [hc]; rfl)
      · rw [hc]
        exact lookup_append_self s.babies b (some ptr) hc
    · intro k hk
      exact lookup_assocPut_ne s.growth ptr k _ hk

/-- C5 witness: the amended claim at the concrete pointer-carrying image
`imgPtr` over the matching store `sPtr`, with a committed transaction. -/
theorem C5_witness :
    (true = false → _upsert_birth_growth_item true "f1" 3 sPtr imgPtr
      [("weight", some 3200)] = sPtr) ∧
    (true = true →
      (∃ it, List.lookup "bd1" (_upsert_birth_growth_item true "f1" 3 sPtr imgPtr
          [("weight", some 3200)]).growth = some it ∧
        it.babyId = "b1" ∧ it.measurementSource = "birth" ∧ it.measurementDate = some 100) ∧
      List.lookup "b1" (_upsert_birth_growth_item true "f1" 3 sPtr imgPtr
        [("weight", some 3200)]).babies = some (some "bd1") ∧
      (∀ k, k ≠ "bd1" →
        List.lookup k (_upsert_birth_growth_item true "f1" 3 sPtr imgPtr
          [("weight", some 3200)]).growth = List.lookup k sPtr.growth)) :=
  C5_amended true "f1" 3 sPtr imgPtr [("weight", some 3200)] "b1" "u1" "bd1" 100
    (by decide) (by decide) (by decide) (by decide) (by decide) (by decide) (by decide)
    (Or.inl (by decide))

theorem setPointerIfAbsent_lookup (babies : BabiesTable) (b i : String) :
    ∃ w, List.lookup b (setPointerIfAbsent babies b i) = some (some w) := by
  unfold setPointerIfAbsent
  cases hc : List.lookup b babies with
  | some w =>
    cases w with
    | some p => exact ⟨p, hc⟩
    | none => exact ⟨i, lookup_replace_self babies b (some i) (by rw [hc]; rfl)⟩
  | none => exact ⟨i, lookup_append_self babies b (some i) hc⟩

theorem setPointerIfAbsent_idem (babies : BabiesTable) (b i : String) :
    setPointerIfAbsent (setPointerIfAbsent babies b i) b i =
      setPointerIfAbsent babies b i := by
  obtain ⟨w, hw⟩ := setPointerIfAbsent_lookup babies b i
  generalize hX : setPointerIfAbsent babies b i = X at hw ⊢
  unfold setPointerIfAbsent
  rw [hw]

theorem removePointer_lookup (babies : BabiesTable) (b : String) :
    List.lookup b (removePointer babies b) = some none := by
  unfold removePointer
  cases hc : List.lookup b babies with
  | some w => exact lookup_replace_self babies b none (by rw [hc]; rfl)
  | none => exact lookup_append_self babies b none hc

theorem removePointer_entries (babies : BabiesTable) (b : String) :
    ∀ p ∈ removePointer babies b, p.1 = b → p = (b, none) := by
  unfold removePointer
  cases hc : List.lookup b babies with
  | some w =>
    intro p hp hpb
    obtain ⟨q, hq, rfl⟩ := List.mem_map.mp hp
    by_cases hqb : q.1 = b
    · rw [if_pos hqb]
    · rw [if_neg hqb] at hpb ⊢
      exact absurd hpb hqb
  | none =>
    intro p hp hpb
    rcases List.mem_append.mp hp with hp2 | hp2
    · exact absurd hpb (lookup_eq_none_forall hc p hp2)
    · simpa using hp2

theorem removePointer_idem (babies : BabiesTable) (b : String) :
    removePointer (removePointer babies b) b = removePointer babies b := by
  have h := removePointer_lookup babies b
  have hall := removePointer_entries babies b
  generalize hX : removePointer babies b = X at h hall ⊢
  unfold removePointer
  rw [h]
  refine (List.map_congr_left ?_).trans (List.map_id X)
  intro p hp
  by_cases hpb : p.1 = b
  · rw [if_pos hpb, hall p hp hpb]
    rfl
  · rw [if_neg hpb]
    rfl

theorem assocDelete_idem {α : Type} (l : List (String × α)) (k : String) :
    assocDelete (assocDelete l k) k = assocDelete l k := by
  unfold assocDelete
  rw [List.filter_filter]
  exact List.filter_congr fun a _ => Bool.and_self _

/-- Reduction of `_upsert_birth_growth_item` on a committed transaction
for an image whose `babyId`, `userId`, `dateOfBirth` and `birthDataId`
are all present and truthy. -/
theorem upsert_reduce (fid : String) (now : ℕ) (s : ProjState)
    (baby : BabyImage) (norm : List (String × Option ℚ))
    (b u ptr : String) (dob : ℤ)
    (hb : baby.babyId = some b) (hbne : b ≠ "")
    (hu : baby.userId = some u) (hune : u ≠ "")
    (hd : baby.dateOfBirth = some dob)
    (hp : baby.birthDataId = some ptr) (hpne : ptr ≠ "") :
    _upsert_birth_growth_item true fid now s baby norm =
      { growth := assocPut s.growth ptr
          { dataId := ptr, babyId := b, userId := u, measurementDate := some dob
            measurements := norm, measurementSource := "birth", percentiles := none
            createdAt := match List.lookup ptr s.growth with
                         | some current => current.createdAt
                         | none => now
            updatedAt := now }
        babies := setPointerIfAbsent s.babies b ptr } := by
  unfold _upsert_birth_growth_item
  rw [hb, hu, hd, hp]
  simp only [isTruthy, Option.isSome_some, decide_eq_true_eq, hbne, hune, hpne, ne_eq,
    not_false_eq_true, Bool.and_self, if_true, Option.getD_some]
  rfl

theorem rawBatches_eq (l : List GrowthItem) :
    (chunks25 l).map (fun c => (c.filter fun it => it.dataId ≠ "").map (·.dataId)) =
      (chunks25 (l.map (·.dataId))).map (·.filter fun d => d ≠ "") := by
  rw [chunks25_map, List.map_map]
  apply List.map_congr_left
  intro c _
  simp only [Function.comp_apply]
  rw [List.filter_map]
  rfl

theorem remove_eq (s : ProjState) (b : String) (hb : b ≠ "") :
    _remove_percentiles_for_baby s b =
      ({ s with growth := (removalBatches s.growth b).foldl applyRemoveBatch s.growth },
        removalBatches s.growth b) := by
  unfold _remove_percentiles_for_baby removalBatches
  rw [if_neg hb]

theorem removalBatches_congr (g1 g2 : GrowthTable) (b : String)
    (h : ((g1.filter fun p => p.2.babyId = b).map (·.2)).map (·.dataId) =
      ((g2.filter fun p => p.2.babyId = b).map (·.2)).map (·.dataId)) :
    removalBatches g1 b = removalBatches g2 b := by
  unfold removalBatches
  rw [rawBatches_eq, rawBatches_eq, List.map_map, List.map_map] at *
  rw [h]

theorem remove_percentiles_idem (s : ProjState) (b : String) :
    (_remove_percentiles_for_baby (_remove_percentiles_for_baby s b).1 b).1 =
      (_remove_percentiles_for_baby s b).1 := by
  by_cases hb : b = ""
  · unfold _remove_percentiles_for_baby
    rw [if_pos hb, if_pos hb]
  · rw [remove_eq s b hb]
    rw [remove_eq _ b hb]
    have hstep1 : ∀ p : String × GrowthItem,
        ((if p.1 ∈ (removalBatches s.growth b).flatten then
            (p.1, { p.2 with percentiles := none }) else p) : String × GrowthItem).2.babyId
          = p.2.babyId := by
      intro p
      by_cases hm : p.1 ∈ (removalBatches s.growth b).flatten
      · rw [if_pos hm]
      · rw [if_neg hm]
    have hstep2 : ∀ p : String × GrowthItem,
        ((if p.1 ∈ (removalBatches s.growth b).flatten then
            (p.1, { p.2 with percentiles := none }) else p) : String × GrowthItem).2.dataId
          = p.2.dataId := by
      intro p
      by_cases hm : p.1 ∈ (removalBatches s.growth b).flatten
      · rw [if_pos hm]
      · rw [if_neg hm]
    have hG1 : (removalBatches s.growth b).foldl applyRemoveBatch s.growth =
        s.growth.map fun p =>
          if p.1 ∈ (removalBatches s.growth b).flatten then
            (p.1, { p.2 with percentiles := none })
          else p :=
      foldl_applyRemoveBatch s.growth (removalBatches s.growth b)
    have hids : ((((removalBatches s.growth b).foldl applyRemoveBatch s.growth).filter
          fun p => p.2.babyId = b).map (·.2)).map (·.dataId) =
        (((s.growth.filter fun p => p.2.babyId = b).map (·.2)).map (·.dataId)) := by
      rw [hG1, List.filter_map]
      rw [List.map_map, List.map_map, List.map_map]
      rw [List.filter_congr fun p _ => by
        simp only [Function.comp_apply]
        rw [hstep1 p]]
      apply List.map_congr_left
      intro p _
      simp only [Function.comp_apply]
      rw [hstep2 p]
    have hbatches : removalBatches ((removalBatches s.growth b).foldl applyRemoveBatch
        s.growth) b = removalBatches s.growth b :=
      removalBatches_congr _ _ b hids
    rw [hbatches]
    simp only [ProjState.mk.injEq]
    refine ⟨?_, trivial⟩
    rw [foldl_applyRemoveBatch, hG1, List.map_map]
    apply List.map_congr_left
    intro p _
    simp only [Function.comp_apply]
    by_cases hm : p.1 ∈ (removalBatches s.growth b).flatten
    · rw [if_pos hm, if_pos hm]
    · rw [if_neg hm, if_neg hm]

/-! ## Claim C9 -/

/-- C9 counterexample: replaying the identical stream record (a MODIFY
whose after-image carries birth measurements but no `birthDataId`)
through the projector loop body creates a SECOND birth growth record
under a fresh uuid — an observable difference well beyond an updated
timestamp — while the pointer keeps referencing the first record. -/
theorem C9_counterexample :
    s9b.growth.map Prod.fst = ["g1", "g2"] ∧
    (∀ p ∈ s9b.growth, p.2.babyId = "b1" ∧ p.2.measurementSource = "birth") ∧
    List.lookup "b1" s9b.babies = some (some "g1") := by
  decide

/-- C9 (amended): replay is idempotent apart from `updatedAt` only when
the event image carries the birth-record pointer: then the repeated
upsert rewrites the same record identity (same `dataId`, same
`createdAt`, only `updatedAt` moves to the new timestamp) and the
pointer and every other record are untouched; a repeated delete and a
repeated cache-removal cascade are exact no-ops.  An image without
`birthDataId` is NOT replay-safe (see the counterexample). -/
theorem C9_amended (s : ProjState) (baby : BabyImage)
    (norm : List (String × Option ℚ)) (b u ptr : String) (dob : ℤ)
    (fid1 fid2 : String) (t1 t2 : ℕ)
    (hb : baby.babyId = some b) (hbne : b ≠ "")
    (hu : baby.userId = some u) (hune : u ≠ "")
    (hd : baby.dateOfBirth = some dob)
    (hp : baby.birthDataId = some ptr) (hpne : ptr ≠ "") :
    (∃ it1,
      List.lookup ptr (_upsert_birth_growth_item true fid1 t1 s baby norm).growth =
        some it1 ∧
      _upsert_birth_growth_item true fid2 t2
          (_upsert_birth_growth_item true fid1 t1 s baby norm) baby norm =
        { growth := assocPut (_upsert_birth_growth_item true fid1 t1 s baby norm).growth
            ptr { it1 with updatedAt := t2 }
          babies := (_upsert_birth_growth_item true fid1 t1 s baby norm).babies }) ∧
    (_delete_birth_growth_item_and_pointer true
        (_delete_birth_growth_item_and_pointer true s baby) baby =
      _delete_birth_growth_item_and_pointer true s baby) ∧
    ((_remove_percentiles_for_baby (_remove_percentiles_for_baby s b).1 b).1 =
      (_remove_percentiles_for_baby s b).1) := by
  refine ⟨?_, ?_, remove_percentiles_idem s b⟩
  · rw [upsert_reduce fid1 t1 s baby norm b u ptr dob hb hbne hu hune hd hp hpne]
    refine ⟨_, lookup_assocPut_self _ _ _, ?_⟩
    rw [upsert_reduce fid2 t2 _ baby norm b u ptr dob hb hbne hu hune hd hp hpne]
    dsimp only
    rw [lookup_assocPut_self]
    rw [setPointerIfAbsent_idem]
  · unfold _delete_birth_growth_item_and_pointer
    rw [hb, hp]
    simp only [isTruthy, decide_eq_true_eq, hbne, hpne, ne_eq, not_false_eq_true,
      Bool.and_self, if_true]
    rw [assocDelete_idem, removePointer_idem]

/-- C9 witness: the amended claim at the pointer-carrying image `imgPtr`
over the matching store `sPtr`. -/
theorem C9_witness :
    (∃ it1,
      List.lookup "bd1" (_upsert_birth_growth_item true "f1" 1 sPtr imgPtr
          [("weight", some 3200)]).growth = some it1 ∧
      _upsert_birth_growth_item true "f2" 2
          (_upsert_birth_growth_item true "f1" 1 sPtr imgPtr [("weight", some 3200)])
          imgPtr [("weight", some 3200)] =
        { growth := assocPut (_upsert_birth_growth_item true "f1" 1 sPtr imgPtr
              [("weight", some 3200)]).growth "bd1" { it1 with updatedAt := 2 }
          babies := (_upsert_birth_growth_item true "f1" 1 sPtr imgPtr
            [("weight", some 3200)]).babies }) ∧
    (_delete_birth_growth_item_and_pointer true
        (_delete_birth_growth_item_and_pointer true sPtr imgPtr) imgPtr =
      _delete_birth_growth_item_and_pointer true sPtr imgPtr) ∧
    ((_remove_percentiles_for_baby (_remove_percentiles_for_baby sPtr "b1").1 "b1").1 =
      (_remove_percentiles_for_baby sPtr "b1").1) :=
  C9_amended sPtr imgPtr [("weight", some 3200)] "b1" "u1" "bd1" 100 "f1" "f2" 1 2
    (by decide) (by decide) (by decide) (by decide) (by decide) (by decide) (by decide)
